import Mathlib

/-!
Verification of core orchestration behaviour of the ophyd v2 core module
(ophyd/v2/core.py): the connection orchestrator and its failure report,
the AsyncStatus future wrapper, device naming, the subscription bridge,
and the composite readable merge rules.  Python functions are embedded as
pure Lean functions over explicit state; exceptions are embedded as sum
types.
-/

set_option autoImplicit false

namespace Ophyd

/-! ## Connection orchestrator: wait_for_connection -/

/-- Outcome of awaiting one child connect task inside the exception handler
of wait_for_connection: the await returns normally (the child succeeded, or
its coroutine suppressed the cancellation and returned), raises a
NotConnected exception carrying its report lines, or — for a child whose
task was cancelled without converting the cancellation into a failure —
raises CancelledError. -/
inductive AwaitOutcome where
  | ok : AwaitOutcome
  | notConnected (lines : List String) : AwaitOutcome
  | cancelled : AwaitOutcome
deriving DecidableEq, Repr

/-- Lines contributed to the aggregate report by one child, following the
loop body in wait_for_connection: a failure whose report is a single line is
rendered inline as "name: message"; any other failure is a "name:" header
followed by each line of the child report indented by two spaces. -/
def childReportLines (k : String) : List String → List String
  | [l] => [k ++ ": " ++ l]
  | ls => (k ++ ":") :: ls.map (fun line => "  " ++ line)

/-- The report loop of wait_for_connection over the children in insertion
order, carrying the lines accumulated so far: a child whose await returns
contributes nothing, a child whose await raises NotConnected appends its
report lines, and a child whose await raises CancelledError aborts the loop
— only NotConnected is caught, so the CancelledError escapes the handler
and the accumulated report is lost (none). -/
def reportLoop : List (String × AwaitOutcome) → List String → Option (List String)
  | [], lines => some lines
  | (k, o) :: rest, lines =>
    match o with
    | .ok => reportLoop rest lines
    | .notConnected ls => reportLoop rest (lines ++ childReportLines k ls)
    | .cancelled => none

/-- The children whose await raised NotConnected, in insertion order, each
paired with its report lines. -/
def failingChildren (results : List (String × AwaitOutcome)) : List (String × List String) :=
  results.filterMap (fun p =>
    match p.2 with
    | .ok => none
    | .notConnected ls => some (p.1, ls)
    | .cancelled => none)

/-- Report block for one failing child in the words of the spec: one line
"name: message" for a single-line leaf failure, and a multi-line child
report nested under "name:" with each of its lines indented one level. -/
def specChildBlock (k : String) (ls : List String) : List String :=
  if ls.length = 1 then [k ++ ": " ++ ls.headI]
  else (k ++ ":") :: ls.map (fun l => "  " ++ l)

/-- Report in the words of the spec: the concatenation, over exactly the
failing children in insertion order, of each child report block. -/
def connectAllReportSpec (results : List (String × AwaitOutcome)) : List String :=
  ((failingChildren results).map (fun p => specChildBlock p.1 p.2)).flatten

/-- Result of one call to wait_for_connection: a normal return, a raised
NotConnected (the cancellation path with every awaited child either
returning or raising NotConnected), a propagated CancelledError (some child
was cancelled without converting the cancellation into a failure, so its
await raised CancelledError past the except-NotConnected clause), or the
ValueError that asyncio.wait raises when handed an empty set of tasks. -/
inductive ConnResult where
  | ok : ConnResult
  | valueError : ConnResult
  | notConnectedRaised (lines : List String) : ConnResult
  | cancelledErrorRaised : ConnResult
deriving DecidableEq, Repr

/-- One run of wait_for_connection.  The child coroutines are wrapped in
tasks and handed to asyncio.wait, which raises ValueError when the task set
is empty.  Otherwise, when the orchestrator is never cancelled the wait
returns normally (child failures are not re-raised on this path); when it
is cancelled every child task is cancelled and then awaited in insertion
order, and either the loop survives every await — only NotConnected being
caught — and raises a NotConnected carrying the accumulated report, or some
await raises CancelledError, which escapes the handler and propagates. -/
def waitForConnectionRun (results : List (String × AwaitOutcome))
    (cancelled : Bool) : ConnResult :=
  if results.isEmpty then .valueError
  else if cancelled then
    match reportLoop results [] with
    | some lines => .notConnectedRaised lines
    | none => .cancelledErrorRaised
  else .ok

theorem childReportLines_eq_specChildBlock (k : String) (ls : List String) :
    childReportLines k ls = specChildBlock k ls := by
  cases ls with
  | nil => simp [childReportLines, specChildBlock]
  | cons l rest =>
    cases rest with
    | nil => simp [childReportLines, specChildBlock, List.headI]
    | cons l2 rest2 => simp [childReportLines, specChildBlock]

theorem reportLoop_no_cancel (results : List (String × AwaitOutcome))
    (h : ∀ p ∈ results, p.2 ≠ AwaitOutcome.cancelled) :
    ∀ acc : List String,
      reportLoop results acc = some (acc ++ connectAllReportSpec results) := by
  induction results with
  | nil => intro acc; simp [reportLoop, connectAllReportSpec, failingChildren]
  | cons hd tl ih =>
    intro acc
    have htl : ∀ p ∈ tl, p.2 ≠ AwaitOutcome.cancelled :=
      fun p hp => h p (by simp [hp])
    cases hd with
    | mk k o =>
      cases o with
      | ok =>
        rw [show reportLoop ((k, AwaitOutcome.ok) :: tl) acc = reportLoop tl acc
          from rfl]
        rw [ih htl acc]
        simp [connectAllReportSpec, failingChildren]
      | notConnected ls =>
        rw [show reportLoop ((k, AwaitOutcome.notConnected ls) :: tl) acc
            = reportLoop tl (acc ++ childReportLines k ls) from rfl]
        rw [ih htl (acc ++ childReportLines k ls)]
        simp [connectAllReportSpec, failingChildren,
          childReportLines_eq_specChildBlock, List.append_assoc]
      | cancelled =>
        exact absurd rfl (h (k, AwaitOutcome.cancelled) (by simp))

theorem reportLoop_cancel (results : List (String × AwaitOutcome))
    (h : ∃ p ∈ results, p.2 = AwaitOutcome.cancelled) :
    ∀ acc : List String, reportLoop results acc = none := by
  induction results with
  | nil => simp at h
  | cons hd tl ih =>
    intro acc
    cases hd with
    | mk k o =>
      cases o with
      | cancelled => rfl
      | ok =>
        have htl : ∃ p ∈ tl, p.2 = AwaitOutcome.cancelled := by
          rcases h with ⟨p, hp, hpc⟩
          rcases List.mem_cons.mp hp with hph | hpt
          · rw [hph] at hpc
            exact absurd hpc (by simp)
          · exact ⟨p, hpt, hpc⟩
        exact ih htl acc
      | notConnected ls =>
        have htl : ∃ p ∈ tl, p.2 = AwaitOutcome.cancelled := by
          rcases h with ⟨p, hp, hpc⟩
          rcases List.mem_cons.mp hp with hph | hpt
          · rw [hph] at hpc
            exact absurd hpc (by simp)
          · exact ⟨p, hpt, hpc⟩
        exact ih htl (acc ++ childReportLines k ls)

/-- Claim C1 counterexample: a cancelled orchestrator with one child that
failed with NotConnected and one child that was cancelled without producing
a failure does not raise the NotConnected report naming the failing child —
awaiting the cleanly-cancelled child raises CancelledError, which is not
caught by the except-NotConnected clause, so the CancelledError propagates
and the accumulated report is lost. -/
theorem wait_for_connection_clean_cancel_counterexample :
    waitForConnectionRun
        [("a", .notConnected ["x"]), ("b", .cancelled)] true
      = .cancelledErrorRaised
      ∧ ConnResult.cancelledErrorRaised ≠ ConnResult.notConnectedRaised ["a: x"] := by
  constructor
  · rfl
  · intro hcontra
    cases hcontra

/-- Claim C1 as amended: when wait_for_connection over named child connect
operations is cancelled and no child was cancelled without producing a
failure (each await returns or raises NotConnected), it raises a single
NotConnected whose report holds, in the children's insertion order, exactly
one block per child whose connect failed and no more — a single
"name: message" line when the child failure is one line, otherwise a
"name:" header followed by the child report lines each indented one level —
and children that succeeded contribute nothing; but when some child's await
raises CancelledError, that error escapes the except-NotConnected handler
and propagates, and no NotConnected report is raised at all. -/
theorem wait_for_connection_cancelled_report
    (results : List (String × AwaitOutcome)) (h : results ≠ []) :
    ((∀ p ∈ results, p.2 ≠ AwaitOutcome.cancelled) →
        waitForConnectionRun results true
          = .notConnectedRaised (connectAllReportSpec results))
      ∧ ((∃ p ∈ results, p.2 = AwaitOutcome.cancelled) →
        waitForConnectionRun results true = .cancelledErrorRaised) := by
  constructor
  · intro hnc
    unfold waitForConnectionRun
    rw [if_neg (by simpa using h), if_pos rfl, reportLoop_no_cancel results hnc []]
    simp
  · intro hc
    unfold waitForConnectionRun
    rw [if_neg (by simpa using h), if_pos rfl, reportLoop_cancel results hc []]

/-- Witness for the amended C1 on a concrete topology: a succeeding child, a
single-line failing child and a multi-line failing child, none cancelled
without a failure. -/
theorem wait_for_connection_cancelled_report_witness :
    waitForConnectionRun
        [("a", .ok), ("b", .notConnected ["x"]), ("c", .notConnected ["y", "z"])]
        true
      = .notConnectedRaised ["b: x", "c:", "  y", "  z"] := by
  have h := (wait_for_connection_cancelled_report
    [("a", .ok), ("b", .notConnected ["x"]), ("c", .notConnected ["y", "z"])]
    (by simp)).1 (by decide)
  rw [h]
  rfl

/-- Claim C6 (code bug): called with zero connect operations,
wait_for_connection hands the empty task set to asyncio.wait, which raises
ValueError, so the zero-children call does not return normally. -/
theorem wait_for_connection_empty_value_error :
    waitForConnectionRun [] false = .valueError := rfl

/-! ## AsyncStatus: the future wrapper -/

/-- State of the asyncio task wrapped by an AsyncStatus: pending, or one of
the three terminal states. -/
inductive TaskState where
  | pending : TaskState
  | succeeded : TaskState
  | failed : TaskState
  | cancelled : TaskState
deriving DecidableEq, Repr

/-- task.done(): true in every terminal state. -/
def TaskState.done : TaskState → Bool
  | .pending => false
  | _ => true

/-- task.cancelled(). -/
def TaskState.isCancelled : TaskState → Bool
  | .cancelled => true
  | _ => false

/-- The observable state of one AsyncStatus: the wrapped task state and the
list of callbacks queued in self._callbacks.  Callbacks are identified by a
number. -/
structure AsyncStatusModel where
  state : TaskState
  callbacks : List Nat
deriving DecidableEq, Repr

/-- AsyncStatus.add_callback: when the status is already done the callback is
invoked immediately, otherwise it is appended to self._callbacks.  Returns
the new state together with the invocations made by this call. -/
def addCallback (st : AsyncStatusModel) (cb : Nat) : AsyncStatusModel × List Nat :=
  if st.state.done then (st, [cb])
  else ({ st with callbacks := st.callbacks ++ [cb] }, [])

/-- The task reaching terminal state t and its done-callback
AsyncStatus._run_callbacks firing: every queued callback is invoked, in
order, unless the task was cancelled, in which case none is.  Returns the new
state together with the invocations. -/
def completeTask (st : AsyncStatusModel) (t : TaskState) :
    AsyncStatusModel × List Nat :=
  ({ st with state := t }, if t.isCancelled then [] else st.callbacks)

/-- One step of a run of add_callback calls: the model is threaded through
and the invocations made so far are accumulated. -/
def addStep (acc : AsyncStatusModel × List Nat) (cb : Nat) :
    AsyncStatusModel × List Nat :=
  let r := addCallback acc.1 cb
  (r.1, acc.2 ++ r.2)

/-- A run of add_callback calls in order, accumulating invocations. -/
def addCallbacks (st : AsyncStatusModel) (cbs : List Nat) :
    AsyncStatusModel × List Nat :=
  cbs.foldl addStep (st, [])

/-- Full life of one AsyncStatus: callbacks pre are registered while the task
is pending, the task then reaches terminal state t, and callbacks post are
registered afterwards.  The result is the list of all callback invocations in
the order they happen. -/
def statusTrace (pre : List Nat) (t : TaskState) (post : List Nat) : List Nat :=
  let r1 := addCallbacks ⟨.pending, []⟩ pre
  let r2 := completeTask r1.1 t
  let r3 := addCallbacks r2.1 post
  r1.2 ++ r2.2 ++ r3.2

theorem foldl_addStep_pending (cbs : List Nat) : ∀ queued fired : List Nat,
    cbs.foldl addStep (⟨.pending, queued⟩, fired)
      = (⟨.pending, queued ++ cbs⟩, fired) := by
  induction cbs with
  | nil => intro queued fired; simp
  | cons c cs ih =>
    intro queued fired
    rw [List.foldl_cons]
    have h1 : addStep (⟨.pending, queued⟩, fired) c
        = (⟨.pending, queued ++ [c]⟩, fired) := by
      simp [addStep, addCallback, TaskState.done]
    rw [h1, ih]
    simp

theorem foldl_addStep_done (cbs : List Nat) :
    ∀ (st : AsyncStatusModel) (fired : List Nat), st.state.done = true →
      cbs.foldl addStep (st, fired) = (st, fired ++ cbs) := by
  induction cbs with
  | nil => intro st fired _; simp
  | cons c cs ih =>
    intro st fired h
    rw [List.foldl_cons]
    have h1 : addStep (st, fired) c = (st, fired ++ [c]) := by
      simp [addStep, addCallback, h]
    rw [h1, ih st (fired ++ [c]) h]
    simp

/-- Claim C2 counterexample: a callback registered while the future is
pending is never invoked when the wrapped task is cancelled, although
cancelled is a terminal state, because _run_callbacks skips the queued
callbacks of a cancelled task.  Here callback 0, registered while pending,
is invoked zero times rather than exactly once. -/
theorem add_callback_cancelled_counterexample :
    statusTrace [0] TaskState.cancelled [] = [] ∧ ([] : List Nat) ≠ [0] := by
  constructor
  · rfl
  · simp

/-- Claim C2 as amended: a callback registered while the future is pending is
invoked exactly once, in registration order, when the wrapped task reaches
the terminal state succeeded or failed, and is never invoked when the task
is cancelled; a callback registered after the future is already done
(whatever the terminal state) is invoked immediately, so the full invocation
trace is the pending-registered list (dropped on cancellation) followed by
the after-done registrations in call order. -/
theorem status_callbacks_fire_order (pre post : List Nat) (t : TaskState)
    (h : t.done = true) :
    statusTrace pre t post = (if t.isCancelled then [] else pre) ++ post := by
  unfold statusTrace addCallbacks
  rw [foldl_addStep_pending pre [] []]
  simp only [completeTask, List.nil_append]
  rw [foldl_addStep_done post ⟨t, pre⟩ [] h]
  simp

/-- Witness for the amended C2: two callbacks registered while pending and
one registered after a failed completion fire exactly once each, in order. -/
theorem status_callbacks_fire_order_witness :
    statusTrace [1, 2] TaskState.failed [3] = [1, 2, 3] := by
  have h := status_callbacks_fire_order [1, 2] [3] TaskState.failed rfl
  rw [h]
  rfl

/-- AsyncStatus.success embedded as an Except: evaluating the property on a
pending status trips the assertion (fails loudly); on a done status,
task.result() is consulted, an Exception or CancelledError from it is caught
and converted to false, and otherwise the property is true. -/
def statusSuccess (t : TaskState) : Except String Bool :=
  if t.done then
    match t with
    | .succeeded => .ok true
    | _ => .ok false
  else .error "Status has not completed yet"

/-- Claim C3: reading success before the future is done raises rather than
returning false; once done, success is true exactly when the wrapped
operation succeeded, and both a failure and a cancellation are converted to
false without re-raising from the accessor. -/
theorem async_status_success_spec :
    statusSuccess TaskState.pending = .error "Status has not completed yet"
      ∧ statusSuccess TaskState.succeeded = .ok true
      ∧ statusSuccess TaskState.failed = .ok false
      ∧ statusSuccess TaskState.cancelled = .ok false := by
  refine ⟨rfl, rfl, rfl, rfl⟩

/-! ## Device naming -/

/-- Observable naming state of a bare Signal: the stored _name field. -/
structure SignalModel where
  _name : String
deriving DecidableEq, Repr

/-- Signal.set_name: assigns the given name to _name unconditionally. -/
def signalSetName (s : SignalModel) (name : String) : SignalModel :=
  { s with _name := name }

/-- attr_name.rstrip over the underscore character: drop every trailing
underscore of the attribute name. -/
def rstripUnderscore (s : String) : String :=
  String.mk ((s.data.reverse.dropWhile (fun c => c = '_')).reverse)

/-- Observable naming state of a StandardReadable: its own stored _name and
the child Devices found in its __dict__, as attribute-name/child pairs in
insertion order. -/
structure StandardReadableModel where
  _name : String
  children : List (String × SignalModel)
deriving DecidableEq, Repr

/-- StandardReadable.set_name: only when the given name is non-empty and the
device is not yet named, store the name and rename every child Device to
name-attr with the trailing underscores of the attribute stripped; in every
other case do nothing. -/
def standardReadableSetName (st : StandardReadableModel) (name : String) :
    StandardReadableModel :=
  if name ≠ "" ∧ st._name = "" then
    { _name := name,
      children := st.children.map
        (fun p => (p.1, signalSetName p.2 (name ++ "-" ++ rstripUnderscore p.1))) }
  else st

/-- Claim C4 counterexample: Signal is a Device specialization, yet
Signal.set_name called a second time with a different name is not a no-op:
after set_name "a" then set_name "b" the stored name is "b", not the
original "a". -/
theorem signal_set_name_overwrites_counterexample :
    (signalSetName (signalSetName ⟨""⟩ "a") "b")._name = "b"
      ∧ ("b" : String) ≠ "a" := ⟨rfl, by decide⟩

theorem standardReadableSetName_named (st : StandardReadableModel)
    (n2 : String) (hn : st._name ≠ "") : standardReadableSetName st n2 = st := by
  unfold standardReadableSetName
  rw [if_neg]
  intro hc
  exact hn hc.2

/-- Claim C4 as amended: StandardReadable.set_name sets the name exactly
once — a call with an empty name is a no-op, and once a non-empty name is
set every subsequent call is a no-op leaving the stored name intact — but
bare Signal.set_name assigns unconditionally, overwriting any previous name,
so the once-only rule holds at the StandardReadable level that names its
children, not for Signal itself. -/
theorem set_name_once_amended (st : StandardReadableModel) (name : String)
    (h : name ≠ "") (h0 : st._name = "") :
    (standardReadableSetName st name)._name = name
      ∧ (∀ n2 : String,
          standardReadableSetName (standardReadableSetName st name) n2
            = standardReadableSetName st name)
      ∧ standardReadableSetName st "" = st
      ∧ ∀ (s : SignalModel) (m : String), (signalSetName s m)._name = m := by
  have hset : standardReadableSetName st name
      = { _name := name,
          children := st.children.map
            (fun p =>
              (p.1, signalSetName p.2 (name ++ "-" ++ rstripUnderscore p.1))) } := by
    unfold standardReadableSetName
    rw [if_pos ⟨h, h0⟩]
  refine ⟨by rw [hset], ?_, ?_, fun s m => rfl⟩
  · intro n2
    refine standardReadableSetName_named _ n2 ?_
    rw [hset]
    exact h
  · unfold standardReadableSetName
    rw [if_neg (by simp)]

/-- Witness for the amended C4 on a concrete device with one child whose
attribute name carries a trailing underscore. -/
theorem set_name_once_amended_witness :
    (standardReadableSetName ⟨"", [("x_", ⟨""⟩)]⟩ "a")._name = "a"
      ∧ standardReadableSetName
          (standardReadableSetName ⟨"", [("x_", ⟨""⟩)]⟩ "a") "b"
        = standardReadableSetName ⟨"", [("x_", ⟨""⟩)]⟩ "a" := by
  have h := set_name_once_amended ⟨"", [("x_", ⟨""⟩)]⟩ "a" (by decide) rfl
  exact ⟨h.1, h.2.1 "b"⟩

/-! ## wait_for_value: the predicate wait -/

/-- Modelled from the spec: the concrete Signal transport (the
ophyd.v2.epics signal implementations, not part of this source tree) keeps a
set of active value-change subscribers; subscribe_value registers the given
callback in it.  Callbacks are identified by a number; each observe_value
call registers the put method of a queue private to that call, so its
callback is distinct from every other subscriber. -/
def subscribeValue (subs : List Nat) (cb : Nat) : List Nat :=
  subs ++ [cb]

/-- Modelled from the spec: clear_sub removes the given callback from the
signal's set of active value-change subscribers. -/
def clearSub (subs : List Nat) (cb : Nat) : List Nat :=
  subs.filter (fun c => c != cb)

/-- How one consumption of observe_value ends: the consumer stops pulling,
the consumer task is cancelled, or the consumer raises. -/
inductive ExitPath where
  | stopped : ExitPath
  | cancelled : ExitPath
  | raised : ExitPath
deriving DecidableEq, Repr

/-- One consumption of observe_value against a signal whose subscriber list
is subs: subscribe_value is called once before the first yield, and the
try/finally around the yield loop runs clear_sub exactly once when the
generator is finalized, whichever way consumption ends.  Returns the
signal's final subscriber list and the number of clear_sub calls made. -/
def observeValueRun (subs : List Nat) (cb : Nat) (e : ExitPath) :
    List Nat × Nat :=
  let afterSub := subscribeValue subs cb
  match e with
  | .stopped => (clearSub afterSub cb, 1)
  | .cancelled => (clearSub afterSub cb, 1)
  | .raised => (clearSub afterSub cb, 1)

/-- Claim C7: for every consumption of observe_value, the value-change
subscriber registered at the start is unregistered exactly once when
consumption ends, on every exit path — normal stop, cancellation, or
exception — so the signal's subscriber list afterwards no longer contains
that consumer's callback and is in fact exactly what it was before. -/
theorem observe_value_unsubscribes (subs : List Nat) (cb : Nat) (e : ExitPath)
    (hfresh : cb ∉ subs) :
    (observeValueRun subs cb e).1 = subs
      ∧ cb ∉ (observeValueRun subs cb e).1
      ∧ (observeValueRun subs cb e).2 = 1 := by
  have hclear : clearSub (subscribeValue subs cb) cb = subs := by
    unfold clearSub subscribeValue
    rw [List.filter_append]
    have h1 : subs.filter (fun c => c != cb) = subs := by
      refine List.filter_eq_self.mpr ?_
      intro a ha
      simp only [bne_iff_ne, ne_eq, decide_eq_true_eq]
      intro hacb
      exact hfresh (hacb ▸ ha)
    have h2 : [cb].filter (fun c => c != cb) = [] := by simp
    rw [h1, h2, List.append_nil]
  cases e with
  | stopped =>
    refine ⟨hclear, ?_, rfl⟩
    show cb ∉ clearSub (subscribeValue subs cb) cb
    rw [hclear]
    exact hfresh
  | cancelled =>
    refine ⟨hclear, ?_, rfl⟩
    show cb ∉ clearSub (subscribeValue subs cb) cb
    rw [hclear]
    exact hfresh
  | raised =>
    refine ⟨hclear, ?_, rfl⟩
    show cb ∉ clearSub (subscribeValue subs cb) cb
    rw [hclear]
    exact hfresh

/-- Witness for C7: a signal with one other subscriber, consumption ending
by exception. -/
theorem observe_value_unsubscribes_witness :
    (observeValueRun [5] 7 ExitPath.raised).1 = [5]
      ∧ 7 ∉ (observeValueRun [5] 7 ExitPath.raised).1
      ∧ (observeValueRun [5] 7 ExitPath.raised).2 = 1 :=
  observe_value_unsubscribes [5] 7 ExitPath.raised (by decide)

/-! ## Composite readable: read, merge and the primary renamer -/

/-- Python dict insertion over string keys: an existing key keeps its
position and gets the new value, a fresh key is appended at the end. -/
def dictInsert {β : Type} (d : List (String × β)) (k : String) (v : β) :
    List (String × β) :=
  if d.any (fun p => p.1 == k) then
    d.map (fun p => if p.1 == k then (k, v) else p)
  else d ++ [(k, v)]

/-- dict.update as used by merge_gathered_dicts: every entry of the other
dict is inserted in order, so later entries overwrite earlier ones on key
collision. -/
def dictUpdate {β : Type} (d other : List (String × β)) : List (String × β) :=
  other.foldl (fun acc p => dictInsert acc p.1 p.2) d

/-- merge_gathered_dicts: asyncio.gather returns the result dicts in the
order the coroutines were supplied, and they are merged into one dict by
successive dict.update starting from the empty dict. -/
def mergeGatheredDicts {β : Type} (ds : List (List (String × β))) :
    List (String × β) :=
  ds.foldl dictUpdate []

/-- _ReadableRenamer._rename: the dict comprehension keyed everywhere by the
composite device name over the values of the child dict, each insertion
under that one key overwriting the previous one. -/
def renameReading {β : Type} (deviceName : String) (d : List (String × β)) :
    List (String × β) :=
  d.foldl (fun acc p => dictInsert acc deviceName p.2) []

/-- The value carried by the last entry of an association list, given a
default for the empty list: the value that survives repeated insertion
under a single key. -/
def lastValueD {β : Type} : List (String × β) → β → β
  | [], v => v
  | p :: tl, _ => lastValueD tl p.2

/-- StandardReadable.read for a composite constructed with a primary child
and further read children: _read_signals is the renamed primary followed by
the read children in construction order, and read() merges their reading
dicts with merge_gathered_dicts. -/
def standardReadableRead {β : Type} (deviceName : String)
    (primaryReading : List (String × β))
    (childReadings : List (List (String × β))) : List (String × β) :=
  mergeGatheredDicts (renameReading deviceName primaryReading :: childReadings)

/-- Claim C8: read() of a StandardReadable with a primary child A and a read
child B merges the reading dicts in construction order with the renamed
primary first, so the result carries A's reading re-keyed from A's own key
to the composite's name followed by B's reading under B's original key; and
on key collision the later entry overwrites the earlier one. -/
theorem standard_readable_read_merge {β : Type} (n aKey bKey : String)
    (aVal bVal : β) (hb : bKey ≠ n) :
    standardReadableRead n [(aKey, aVal)] [[(bKey, bVal)]]
        = [(n, aVal), (bKey, bVal)]
      ∧ standardReadableRead n [(aKey, aVal)] [[(n, bVal)]] = [(n, bVal)] := by
  have hnb : (n == bKey) = false := by
    simp only [beq_eq_false_iff_ne, ne_eq]
    exact fun hnb2 => hb hnb2.symm
  constructor
  · simp [standardReadableRead, mergeGatheredDicts, renameReading, dictUpdate,
      dictInsert, hnb]
  · simp [standardReadableRead, mergeGatheredDicts, renameReading, dictUpdate,
      dictInsert]

/-- Witness for C8 on a concrete composite named comp with primary reading
keyed primary and a second child keyed b. -/
theorem standard_readable_read_merge_witness :
    standardReadableRead "comp" [("primary", (1 : Nat))] [[("b", 2)]]
      = [("comp", 1), ("b", 2)] :=
  (standard_readable_read_merge "comp" "primary" "b" 1 2 (by decide)).1

theorem renameReading_loop {β : Type} (n : String) (tl : List (String × β)) :
    ∀ v : β,
      tl.foldl (fun acc p => dictInsert acc n p.2) [(n, v)]
        = [(n, lastValueD tl v)] := by
  induction tl with
  | nil => intro v; simp [lastValueD]
  | cons hd tl2 ih =>
    intro v
    rw [List.foldl_cons]
    have hstep : dictInsert [(n, v)] n hd.2 = [(n, hd.2)] := by
      simp [dictInsert]
    rw [hstep, ih hd.2]
    rfl

/-- Claim C9: the primary renamer replaces every key of the primary child's
reading or description dict by the composite's single name, so its
contribution has at most one entry: empty when the child dict is empty, and
otherwise a single entry under the composite name holding the child's last
value, every other value being silently dropped. -/
theorem readable_renamer_single_entry {β : Type} (n : String) (p : String × β)
    (tl : List (String × β)) :
    renameReading n ([] : List (String × β)) = []
      ∧ renameReading n (p :: tl) = [(n, lastValueD tl p.2)]
      ∧ (renameReading n (p :: tl)).length ≤ 1 := by
  have hcons : renameReading n (p :: tl) = [(n, lastValueD tl p.2)] := by
    unfold renameReading
    rw [List.foldl_cons]
    have hfirst : dictInsert ([] : List (String × β)) n p.2 = [(n, p.2)] := by
      simp [dictInsert]
    rw [hfirst]
    exact renameReading_loop n tl p.2
  exact ⟨rfl, hcons, by rw [hcons]; exact Nat.le_refl 1⟩

/-- Witness for C9: a two-entry primary reading collapses to one entry under
the composite name carrying the second value. -/
theorem readable_renamer_single_entry_witness :
    renameReading "comp" [("k1", (1 : Nat)), ("k2", 2)] = [("comp", 2)] := by
  have h := readable_renamer_single_entry "comp" ("k1", (1 : Nat)) [("k2", 2)]
  rw [h.2.1]
  rfl

/-! ## Signal hashing and comparison -/

/-- CPython hash of a non-negative machine int: the value reduced modulo the
Mersenne prime 2 ^ 61 - 1. -/
def pyIntHash (n : Nat) : Nat := n % (2 ^ 61 - 1)

/-- A Signal instance reduced to what identity-based hashing sees: its id,
the CPython object address. -/
structure SignalObj where
  id : Nat
deriving DecidableEq, Repr

/-- Signal.__hash__: hash of id(self). -/
def signalHash (s : SignalObj) : Nat := pyIntHash s.id

/-- The six rich comparison operators of Signal, all bound to the one _fail
function. -/
inductive CmpOp where
  | lt : CmpOp
  | le : CmpOp
  | eq : CmpOp
  | ge : CmpOp
  | gt : CmpOp
  | ne : CmpOp
deriving DecidableEq, Repr

/-- The operand a comparison receives: another Signal, or any non-Signal
object. -/
inductive CmpOperand where
  | signal (s : SignalObj) : CmpOperand
  | nonSignal : CmpOperand
deriving DecidableEq, Repr

/-- Result of one comparison call through _fail: a raised TypeError when the
other operand is a Signal, the NotImplemented sentinel otherwise. -/
inductive CmpResult where
  | typeErrorRaised : CmpResult
  | notImplemented : CmpResult
deriving DecidableEq, Repr

/-- _fail, the common implementation behind all six comparison operators of
Signal: raise TypeError against another Signal, return NotImplemented
against anything else. -/
def signalCompare (_op : CmpOp) (other : CmpOperand) : CmpResult :=
  match other with
  | .signal _ => .typeErrorRaised
  | .nonSignal => .notImplemented

/-- Claim C10: every Signal hashes to the hash of its id, so distinct
instances can live in sets and dicts by identity without error, while every
one of the six comparison operators raises TypeError against another Signal
and returns NotImplemented against a non-Signal. -/
theorem signal_hash_and_compare (s other : SignalObj) (op : CmpOp) :
    signalHash s = pyIntHash s.id
      ∧ signalCompare op (.signal other) = .typeErrorRaised
      ∧ signalCompare op .nonSignal = .notImplemented :=
  ⟨rfl, rfl, rfl⟩

end Ophyd
